import Mathlib

/-!
# Verification of the CNN article scraper (`cnn_scraper.py`)

A shallow embedding of the scraper's core pipeline:

* `parse_main_page` — link discovery on the landing page (anchors with an
  `href`, media-label filter, date-path regex filter, URL normalization,
  dict-based deduplication);
* `extractArticle` / `fetch_article` — per-article extraction of title,
  date (via `datetime.strptime` against the fixed pattern
  `"Updated %I:%M %p %Z, %a %B %d, %Y"`) and body text;
* `get_main_page_articles` — the crawl: landing-page fetch, link
  extraction, fan-out over the links, collecting only successful results;
* `mainExitCode` — the process-exit contract of `main`;
* `PoolStep` / `PoolReach` — a small-step model of the
  `ThreadPoolExecutor(max_workers=threads)` worker pool.

Parsed HTML is modelled as an element tree (`Node`); the HTML parser
itself (`BeautifulSoup(html, "html.parser")`) is not modelled — theorems
quantify over an arbitrary parsing function `String → Node`.  The network
is modelled as an oracle (`Net`) mapping each URL to `Option String`:
`none` stands for any `requests.RequestException` path (connection error,
timeout, or the `raise_for_status` of a non-success status).

String operations are re-implemented on `List Char` so that every
definition evaluates by kernel reduction: `pyStrip` embeds `str.strip`,
`pyRemoveAll` embeds `str.replace(pat, "")`, `containsStr` embeds
Python's `in`, `hasDatePath` embeds `re.search(r"/\d{4}/\d{2}/\d{2}/")`.
Whitespace and digits are modelled at ASCII granularity (Python's
`str.strip` and `\d` also cover further Unicode code points; no claim
distinguishes the two).
-/

/-! ## String utilities (embeddings of Python `str` operations) -/

/-- Whitespace as stripped by `str.strip()` (ASCII fragment). -/
def isPySpace (c : Char) : Bool := c.isWhitespace

/-- Embedding of Python `s.strip()`: remove leading and trailing whitespace. -/
def pyStrip (s : String) : String :=
  ⟨((s.toList.dropWhile isPySpace).reverse.dropWhile isPySpace).reverse⟩

/-- Does `pat` occur as a contiguous sublist of `hay`?  Embeds Python's
substring test `pat in hay` (on the underlying character lists). -/
def subSearch (pat : List Char) : List Char → Bool
  | [] => pat.isEmpty
  | c :: cs => List.isPrefixOf pat (c :: cs) || subSearch pat cs

/-- Embedding of Python `sub in s` (substring containment). -/
def containsStr (s sub : String) : Bool := subSearch sub.toList s.toList

/-- Does the character list begin with `/dddd/dd/dd/` (the date-path
pattern of `re.compile(r"/\d{4}/\d{2}/\d{2}/")`, digits taken ASCII)? -/
def datePathHere : List Char → Bool
  | '/' :: y1 :: y2 :: y3 :: y4 :: '/' :: m1 :: m2 :: '/' :: d1 :: d2 :: '/' :: _ =>
      y1.isDigit && y2.isDigit && y3.isDigit && y4.isDigit &&
      m1.isDigit && m2.isDigit && d1.isDigit && d2.isDigit
  | _ => false

/-- Search for the date-path pattern anywhere in the list
(embeds `article_pattern.search`). -/
def datePathSearch : List Char → Bool
  | [] => false
  | c :: cs => datePathHere (c :: cs) || datePathSearch cs

/-- `re.compile(r"/\d{4}/\d{2}/\d{2}/").search(s)` as a Boolean. -/
def hasDatePath (s : String) : Bool := datePathSearch s.toList

/-- Embedding of Python `s.startswith(pre)`. -/
def pyStartsWith (s pre : String) : Bool := List.isPrefixOf pre.toList s.toList

/-- Fuelled core of `str.replace(pat, "")`: remove every (leftmost,
non-overlapping) occurrence of `pat`.  The fuel is the length of the
input, which suffices because every step consumes at least one
character; fuel keeps the recursion structural so that it evaluates by
kernel reduction. -/
def removeAllFuel (pat : List Char) : Nat → List Char → List Char
  | _, [] => []
  | 0, l => l
  | fuel + 1, c :: cs =>
      if !pat.isEmpty && List.isPrefixOf pat (c :: cs) then
        removeAllFuel pat fuel (cs.drop (pat.length - 1))
      else
        c :: removeAllFuel pat fuel cs

/-- Embedding of Python `s.replace(pat, "")`. -/
def pyRemoveAll (s pat : String) : String :=
  ⟨removeAllFuel pat.toList s.toList.length s.toList⟩

/-- `"\n".join` on a list of strings (embeds `"\n".join(...)`). -/
def joinNL : List String → String
  | [] => ""
  | [s] => s
  | s :: rest => s ++ "\n" ++ joinNL rest

/-- `" ".join` on a list of strings (used for the full value of a
multi-valued `class` attribute). -/
def joinSpace : List String → String
  | [] => ""
  | [s] => s
  | s :: rest => s ++ " " ++ joinSpace rest

/-! ## The element tree (model of a BeautifulSoup document) -/

/-- A node of the parsed HTML document: either a text node or an element
with a tag name, its `class` tokens, its remaining attributes, and its
children in document order. -/
inductive Node where
  | text (s : String)
  | elem (tag : String) (classes : List String) (attrs : List (String × String))
      (children : List Node)

mutual

/-- `soup.find_all(...)` with an arbitrary element predicate: all matching
elements of the tree, in document (preorder) order. -/
def Node.findAll (p : Node → Bool) : Node → List Node
  | .text _ => []
  | .elem t cs as ch =>
      (if p (.elem t cs as ch) then [Node.elem t cs as ch] else []) ++
        Node.findAllList p ch

/-- `findAll` over a list of sibling nodes. -/
def Node.findAllList (p : Node → Bool) : List Node → List Node
  | [] => []
  | n :: ns => Node.findAll p n ++ Node.findAllList p ns

end

mutual

/-- The document-order list of text-node contents below a node. -/
def Node.textList : Node → List String
  | .text s => [s]
  | .elem _ _ _ ch => Node.textListList ch

/-- `textList` over a list of sibling nodes. -/
def Node.textListList : List Node → List String
  | [] => []
  | n :: ns => Node.textList n ++ Node.textListList ns

end

/-- `tag.get_text(strip=True)`: each text segment stripped, then
concatenated. -/
def getTextStrip (n : Node) : String := String.join (n.textList.map pyStrip)

/-- `tag.text`: the raw concatenation of the text segments. -/
def textAll (n : Node) : String := String.join n.textList

/-- The value of attribute `k`, if present (`tag.get(k)`). -/
def attrOf (n : Node) (k : String) : Option String :=
  match n with
  | .text _ => none
  | .elem _ _ attrs _ => List.lookup k attrs

/-- Predicate for `find_all("a", href=True)`: an anchor element carrying
an `href` attribute. -/
def isAnchorWithHref : Node → Bool
  | .elem tag _ attrs _ => tag == "a" && attrs.any (fun p => p.1 == "href")
  | .text _ => false

/-- Predicate for `find_all(t)`: element with tag `t`. -/
def isTag (t : String) : Node → Bool
  | .elem tag _ _ _ => tag == t
  | .text _ => false

/-- Predicate for `find_all("div", class_=cls)`: BeautifulSoup matches
`cls` against each class token and against the exact full attribute
value. -/
def isDivWithClass (cls : String) : Node → Bool
  | .elem tag classes _ _ => tag == "div" && (classes.contains cls || joinSpace classes == cls)
  | .text _ => false

/-! ## `datetime.strptime` / `strftime` for the fixed pattern

The scraper parses the timestamp text against the fixed pattern
`"Updated %I:%M %p %Z, %a %B %d, %Y"` and re-renders the result with
`strftime("%Y-%m-%d %H:%M:%S")`.  The parser below embeds CPython's
`_strptime` for exactly this pattern (field widths and value ranges as in
its generated regex, and the `datetime` constructor's day/month/year
validation).  Name sets are modelled at their locale-independent core
(`AM`/`PM`, English month and weekday names, the always-accepted
timezone names `UTC`/`GMT`); a string outside the modelled acceptance
set parses to `none`, i.e. takes the same `ValueError` fallback path as
in the source. -/

/-- A parsed wall-clock timestamp (naive `datetime`). -/
structure Timestamp where
  year : Nat
  month : Nat
  day : Nat
  hour : Nat
  minute : Nat
  second : Nat
deriving DecidableEq, Repr

/-- Numeric value of a list of decimal digits. -/
def digitsVal (l : List Char) : Nat :=
  l.foldl (fun a c => a * 10 + (c.toNat - '0'.toNat)) 0

/-- Parse a run of decimal digits of length between `minL` and `maxL`
whose value lies in `[lo, hi]`; otherwise fail. -/
def parseNumField (s : String) (minL maxL lo hi : Nat) : Option Nat :=
  let l := s.toList
  if l.length ≥ minL && l.length ≤ maxL && !l.isEmpty && l.all Char.isDigit then
    let v := digitsVal l
    if lo ≤ v && v ≤ hi then some v else none
  else none

/-- Full English month names (`%B`), mapped to month numbers. -/
def monthNumber : String → Option Nat
  | "January" => some 1
  | "February" => some 2
  | "March" => some 3
  | "April" => some 4
  | "May" => some 5
  | "June" => some 6
  | "July" => some 7
  | "August" => some 8
  | "September" => some 9
  | "October" => some 10
  | "November" => some 11
  | "December" => some 12
  | _ => none

/-- Abbreviated English weekday names (`%a`); parsed but, as in CPython,
not used for the resulting timestamp. -/
def isWeekdayAbbr (s : String) : Bool :=
  ["Mon", "Tue", "Wed", "Thu", "Fri", "Sat", "Sun"].contains s

/-- Timezone names accepted for `%Z` (the unconditionally accepted core). -/
def isTzName (s : String) : Bool := ["UTC", "GMT"].contains s

/-- Gregorian leap year. -/
def isLeapYear (y : Nat) : Bool := y % 4 == 0 && (y % 100 != 0 || y % 400 == 0)

/-- Days in a month, as validated by the `datetime` constructor. -/
def daysInMonth (y m : Nat) : Nat :=
  match m with
  | 1 => 31 | 2 => if isLeapYear y then 29 else 28 | 3 => 31
  | 4 => 30 | 5 => 31 | 6 => 30 | 7 => 31 | 8 => 31
  | 9 => 30 | 10 => 31 | 11 => 30 | 12 => 31
  | _ => 0

/-- Split a character list on a separator character, keeping empty
fields. -/
def splitOnChar (sep : Char) (acc : List Char) : List Char → List (List Char)
  | [] => [acc.reverse]
  | c :: cs =>
      if c == sep then acc.reverse :: splitOnChar sep [] cs
      else splitOnChar sep (c :: acc) cs

/-- The fields of `s` split on `sep`. -/
def splitFields (sep : Char) (s : String) : List String :=
  (splitOnChar sep [] s.toList).map (fun l => (⟨l⟩ : String))

/-- Drop one trailing comma, failing if there is none. -/
def dropTrailingComma (s : String) : Option String :=
  match s.toList.reverse with
  | ',' :: rest => some ⟨rest.reverse⟩
  | _ => none

/-- Convert a 12-hour clock reading (`%I` plus `%p`) to a 24-hour hour. -/
def hour24 (hour12 : Nat) (pm : Bool) : Nat :=
  if pm then (if hour12 == 12 then 12 else hour12 + 12)
  else (if hour12 == 12 then 0 else hour12)

/-- `datetime.strptime(s, "Updated %I:%M %p %Z, %a %B %d, %Y")`,
returning `none` exactly where CPython raises `ValueError` (malformed
field, value out of range, or an invalid calendar date). -/
def strptimeUpdated (s : String) : Option Timestamp :=
  match splitFields ' ' s with
  | [w, hm, ap, tzTok, wd, mon, dayTok, yr] =>
    if w == "Updated" then
      match splitFields ':' hm with
      | [hS, mS] => do
        let hour12 ← parseNumField hS 1 2 1 12
        let minute ← parseNumField mS 1 2 0 59
        let pm ← if ap == "PM" then some true else if ap == "AM" then some false else none
        let tz ← dropTrailingComma tzTok
        if isTzName tz && isWeekdayAbbr wd then
          do
            let month ← monthNumber mon
            let dayS ← dropTrailingComma dayTok
            let day ← parseNumField dayS 1 2 1 31
            let year ← parseNumField yr 4 4 1 9999
            if day ≤ daysInMonth year month then
              some ⟨year, month, day, hour24 hour12 pm, minute, 0⟩
            else none
        else none
      | _ => none
    else none
  | _ => none

/-- The character of a single decimal digit. -/
def digitChar (n : Nat) : Char := Char.ofNat ('0'.toNat + n)

/-- Decimal digit list of a natural number (fuelled to keep the
recursion structural). -/
def natDigitsFuel : Nat → Nat → List Char
  | 0, _ => []
  | fuel + 1, n => if n < 10 then [digitChar n] else natDigitsFuel fuel (n / 10) ++ [digitChar (n % 10)]

/-- Decimal digit list of `n`. -/
def natDigits (n : Nat) : List Char := natDigitsFuel (n + 1) n

/-- A number zero-padded to (at least) two digits (`%H`, `%M`, ...). -/
def pad2 (n : Nat) : List Char := if n < 10 then '0' :: natDigits n else natDigits n

/-- A number zero-padded to (at least) four digits (`%Y`). -/
def pad4 (n : Nat) : List Char :=
  if n < 10 then '0' :: '0' :: '0' :: natDigits n
  else if n < 100 then '0' :: '0' :: natDigits n
  else if n < 1000 then '0' :: natDigits n
  else natDigits n

/-- `strftime("%Y-%m-%d %H:%M:%S")` on a parsed timestamp. -/
def formatTimestamp (t : Timestamp) : String :=
  ⟨pad4 t.year ++ '-' :: pad2 t.month ++ '-' :: pad2 t.day ++
    ' ' :: pad2 t.hour ++ ':' :: pad2 t.minute ++ ':' :: pad2 t.second⟩

/-! ## Data model and network oracle -/

/-- A discovered link: `{"title": ..., "url": ...}` as produced by
`parse_main_page`. -/
structure ArticleRef where
  title : String
  url : String
deriving DecidableEq, Repr

/-- A scraped article: `{"title", "date", "content", "url"}` as returned
by `fetch_article`. -/
structure Article where
  title : String
  date : String
  content : String
  url : String
deriving DecidableEq, Repr

/-- The network, as seen through `self.session.get(url, timeout=10)`
followed by `raise_for_status()`: for each URL either the response text,
or `none` for any `requests.RequestException` path (connection error,
timeout, non-success status).  `mainPage` is the response for
`base_url`. -/
structure Net where
  mainPage : Option String
  articlePage : String → Option String

/-! ## `parse_main_page` (link extraction) -/

/-- The candidate links accumulated by the `for link in
soup.find_all("a", href=True)` loop, in traversal order and before
deduplication (the local `articles` list). -/
def anchorCandidates (soup : Node) (base_url : String) : List ArticleRef :=
  (soup.findAll isAnchorWithHref).filterMap (fun link =>
    let article_url := (attrOf link "href").getD ""
    let title := getTextStrip link
    if containsStr title "Video" || containsStr title "Gallery" then none
    else if article_url != "" && hasDatePath article_url then
      let article_url := if pyStartsWith article_url "/" then base_url ++ article_url else article_url
      if title != "" then some ⟨title, article_url⟩ else none
    else none)

/-- One step of building a Python `dict` keyed by URL: if the key is
present its value is overwritten in place, otherwise the pair is
appended (insertion order preserved). -/
def insertAssoc (m : List (String × ArticleRef)) (k : String) (v : ArticleRef) :
    List (String × ArticleRef) :=
  if m.any (fun p => p.1 == k) then m.map (fun p => if p.1 == k then (k, v) else p)
  else m ++ [(k, v)]

/-- The dict comprehension `{article["url"]: article for article in l}`. -/
def urlIndex (l : List ArticleRef) : List (String × ArticleRef) :=
  l.foldl (fun m a => insertAssoc m a.url a) []

/-- `CNNNewsScraper.parse_main_page`: candidate links deduplicated by
URL (`.values()` of the dict). -/
def parse_main_page (soup : Node) (base_url : String) : List ArticleRef :=
  (urlIndex (anchorCandidates soup base_url)).map (fun p => p.2)

/-! ## `fetch_article` (article extraction) -/

/-- Title extraction: text of the first `<h1>` (stripped), else the
link's own title. -/
def extractTitle (soup : Node) (article_info : ArticleRef) : String :=
  match (soup.findAll (isTag "h1")).head? with
  | some title_tag => pyStrip (textAll title_tag)
  | none => article_info.title

/-- `date_str`: stripped text of the first
`<div class="timestamp vossi-timestamp">`, if any. -/
def timestampText (soup : Node) : Option String :=
  ((soup.findAll (isDivWithClass "timestamp vossi-timestamp")).head?).map
    (fun date_tag => pyStrip (textAll date_tag))

/-- The `try`/`except` block computing `date` from `date_str`: parse
against the fixed pattern and re-render; on absence, emptiness (Python
truthiness of `date_str`), or parse failure (`ValueError`/`TypeError`),
the sentinel `"No Date Found"`. -/
def dateFrom : Option String → String
  | none => "No Date Found"
  | some date_str =>
      if date_str == "" then "No Date Found"
      else
        match strptimeUpdated date_str with
        | some t => formatTimestamp t
        | none => "No Date Found"

/-- Date extraction: `dateFrom` applied to the timestamp element's
stripped text. -/
def extractDate (soup : Node) : String := dateFrom (timestampText soup)

/-- The paragraph elements: `soup.find_all("div",
class_="paragraph__content") or soup.find_all("p")` (Python `or` on a
possibly empty list). -/
def paragraphsOf (soup : Node) : List Node :=
  let pc := soup.findAll (isDivWithClass "paragraph__content")
  if pc.isEmpty then soup.findAll (isTag "p") else pc

/-- The body before cleanup: paragraph texts joined with `"\n"`, or the
sentinel when no paragraph element matched. -/
def rawContent (soup : Node) : String :=
  if (paragraphsOf soup).isEmpty then "No Content Found"
  else joinNL ((paragraphsOf soup).map getTextStrip)

/-- Body cleanup: `content.replace("Follow:", "").strip()` (applied on
both branches, sentinel included). -/
def extractContent (soup : Node) : String :=
  pyStrip (pyRemoveAll (rawContent soup) "Follow:")

/-- The article record built by `fetch_article` from a successfully
fetched page. -/
def extractArticle (soup : Node) (article_info : ArticleRef) : Article :=
  { title := extractTitle soup article_info
    date := extractDate soup
    content := extractContent soup
    url := article_info.url }

/-- `CNNNewsScraper.fetch_article`: `none` on any
`requests.RequestException` (the `except` arm returns `None`), otherwise
the extracted article. -/
def fetch_article (net : Net) (parseHTML : String → Node) (article_info : ArticleRef) :
    Option Article :=
  match net.articlePage article_info.url with
  | none => none
  | some html => some (extractArticle (parseHTML html) article_info)

/-! ## `get_main_page_articles` (the crawl) and the exit contract -/

/-- `CNNNewsScraper.get_main_page_articles`.  `fetch_main_page` is the
`mainPage` component of the oracle; its result is truth-tested (`if
html_content:`), so both `None` and the empty string take the empty
branch.  The `ThreadPoolExecutor` fan-out collects, in completion order,
exactly the non-`None` results of `fetch_article`; completion order is
unspecified, and the model fixes submission order (every claim proved
below is order-independent). -/
def get_main_page_articles (base_url : String) (parseHTML : String → Node) (net : Net) :
    List Article :=
  match net.mainPage with
  | none => []
  | some html_content =>
      if html_content == "" then []
      else
        let articles := parse_main_page (parseHTML html_content) base_url
        if articles.isEmpty then []
        else articles.filterMap (fetch_article net parseHTML)

/-- The links the crawl fans out over (the discovery stage of
`get_main_page_articles`, before any article fetch). -/
def discoveredLinks (base_url : String) (parseHTML : String → Node) (net : Net) :
    List ArticleRef :=
  match net.mainPage with
  | none => []
  | some html_content =>
      if html_content == "" then []
      else parse_main_page (parseHTML html_content) base_url

/-- The exit status of `main`: `sys.exit(1)` when the article list is
empty, normal termination (status `0`) otherwise. -/
def mainExitCode (articles : List Article) : Nat :=
  if articles.isEmpty then 1 else 0

/-! ## The worker pool (`ThreadPoolExecutor(max_workers=threads)`)

A small-step model of the executor used at lines 210–214 of the source:
every discovered link is submitted as one task; the executor starts a
pending task only while fewer than `max_workers` tasks are running
(FIFO submission order), and a running task completes at an arbitrary
time with the value of `fetch_article` on its link. -/

/-- The executor's state: submitted-but-not-started tasks (FIFO),
tasks currently in flight, and completed results. -/
structure PoolState where
  pending : List ArticleRef
  running : List ArticleRef
  completed : List (Option Article)
deriving DecidableEq, Repr

/-- One scheduling step of `ThreadPoolExecutor(max_workers)`: start the
next pending task when a worker is free, or finish any running task. -/
inductive PoolStep (net : Net) (parseHTML : String → Node) (max_workers : Nat) :
    PoolState → PoolState → Prop where
  | start (a : ArticleRef) (pend run comp) :
      run.length < max_workers →
      PoolStep net parseHTML max_workers ⟨a :: pend, run, comp⟩ ⟨pend, a :: run, comp⟩
  | finish (a : ArticleRef) (pend run comp) :
      a ∈ run →
      PoolStep net parseHTML max_workers ⟨pend, run, comp⟩
        ⟨pend, run.erase a, fetch_article net parseHTML a :: comp⟩

/-- Reachability under pool steps. -/
def PoolReach (net : Net) (parseHTML : String → Node) (max_workers : Nat) :
    PoolState → PoolState → Prop :=
  Relation.ReflTransGen (PoolStep net parseHTML max_workers)

/-! ## Helper lemmas -/

/-- A date-path match survives prepending characters. -/
theorem datePathSearch_append (t : List Char) {s : List Char}
    (h : datePathSearch s = true) : datePathSearch (t ++ s) = true := by
  induction t with
  | nil => simpa using h
  | cons c cs ih =>
      show datePathSearch (c :: (cs ++ s)) = true
      rw [datePathSearch, Bool.or_eq_true]
      exact Or.inr ih

/-- A date-path match survives prefixing the base URL. -/
theorem hasDatePath_append (base url : String) (h : hasDatePath url = true) :
    hasDatePath (base ++ url) = true := by
  unfold hasDatePath at h ⊢
  have hl : (base ++ url).toList = base.toList ++ url.toList := by
    simp [String.toList]
  rw [hl]
  exact datePathSearch_append _ h

/-- Every candidate link passed all the loop's filters: its URL matches
the date-path pattern and its title is a non-empty text free of the
media labels. -/
theorem mem_anchorCandidates {soup : Node} {base_url : String} {r : ArticleRef}
    (h : r ∈ anchorCandidates soup base_url) :
    hasDatePath r.url = true ∧ containsStr r.title "Video" = false ∧
      containsStr r.title "Gallery" = false ∧ r.title ≠ "" := by
  unfold anchorCandidates at h
  rw [List.mem_filterMap] at h
  obtain ⟨link, -, hf⟩ := h
  simp only at hf
  split at hf
  · exact absurd hf (by simp)
  · rename_i hmedia
    split at hf
    · rename_i hurl
      split at hf
      · rename_i htitle
        obtain rfl : (⟨getTextStrip link,
            if pyStartsWith ((attrOf link "href").getD "") "/" then
              base_url ++ (attrOf link "href").getD ""
            else (attrOf link "href").getD ""⟩ : ArticleRef) = r := by
          exact Option.some.inj hf
        have hmedia0 : (containsStr (getTextStrip link) "Video" ||
            containsStr (getTextStrip link) "Gallery") = false := by
          simpa using hmedia
        have hmedia' := Bool.or_eq_false_iff.mp hmedia0
        have hdp : hasDatePath ((attrOf link "href").getD "") = true := by
          have h2 := hurl
          simp only [Bool.and_eq_true] at h2
          exact h2.2
        refine ⟨?_, hmedia'.1, hmedia'.2, by simpa using htitle⟩
        by_cases hs : pyStartsWith ((attrOf link "href").getD "") "/" = true
        · simp only [hs, if_true]
          exact hasDatePath_append _ _ hdp
        · simp only [Bool.not_eq_true] at hs
          simp only [hs, Bool.false_eq_true, if_false]
          exact hdp
      · exact absurd hf (by simp)
    · exact absurd hf (by simp)

/-- An entry of the dict after one insertion is an old entry or the
inserted pair. -/
theorem mem_insertAssoc {m : List (String × ArticleRef)} {k : String} {v : ArticleRef}
    {p : String × ArticleRef} (h : p ∈ insertAssoc m k v) : p ∈ m ∨ p = (k, v) := by
  unfold insertAssoc at h
  split at h
  · rw [List.mem_map] at h
    obtain ⟨q, hq, he⟩ := h
    by_cases hk : (q.1 == k) = true
    · right
      rw [if_pos hk] at he
      exact he.symm
    · left
      rw [if_neg hk] at he
      exact he ▸ hq
  · rw [List.mem_append] at h
    rcases h with h | h
    · exact Or.inl h
    · right
      simpa using h

/-- An entry of the URL-keyed dict built from `l` (starting from `m`)
is an entry of `m` or the pair of some element of `l`. -/
theorem mem_urlIndex_aux (l : List ArticleRef) :
    ∀ (m : List (String × ArticleRef)) (p : String × ArticleRef),
      p ∈ l.foldl (fun m a => insertAssoc m a.url a) m →
      p ∈ m ∨ ∃ a ∈ l, p = (a.url, a) := by
  induction l with
  | nil => exact fun m p h => Or.inl h
  | cons b l ih =>
      intro m p h
      rw [List.foldl_cons] at h
      rcases ih _ _ h with hm | ⟨a, ha, he⟩
      · rcases mem_insertAssoc hm with h1 | h2
        · exact Or.inl h1
        · exact Or.inr ⟨b, List.mem_cons_self b l, h2⟩
      · exact Or.inr ⟨a, List.mem_cons_of_mem _ ha, he⟩

/-- Every value of the dedup dict is one of the candidate links. -/
theorem mem_parse_main_page {soup : Node} {base_url : String} {r : ArticleRef}
    (h : r ∈ parse_main_page soup base_url) : r ∈ anchorCandidates soup base_url := by
  unfold parse_main_page urlIndex at h
  rw [List.mem_map] at h
  obtain ⟨p, hp, he⟩ := h
  rcases mem_urlIndex_aux _ _ _ hp with h0 | ⟨a, ha, hpe⟩
  · exact absurd h0 (List.not_mem_nil p)
  · rw [hpe] at he
    exact he ▸ ha

/-- In the dedup dict, every key equals its value's URL. -/
theorem urlIndex_key_eq (l : List ArticleRef) :
    ∀ p ∈ urlIndex l, p.1 = p.2.url := by
  intro p hp
  rcases mem_urlIndex_aux l [] p hp with h0 | ⟨a, -, he⟩
  · exact absurd h0 (List.not_mem_nil p)
  · rw [he]

/-- Inserting under a different key leaves the entries for key `u`
unchanged. -/
theorem insertAssoc_filter_ne (m : List (String × ArticleRef)) (k : String)
    (v : ArticleRef) (u : String) (hne : k ≠ u) :
    (insertAssoc m k v).filter (fun p => p.1 == u) = m.filter (fun p => p.1 == u) := by
  unfold insertAssoc
  split
  · rw [List.filter_map]
    have h1 : m.filter ((fun p => p.1 == u) ∘ fun p => if p.1 == k then (k, v) else p)
        = m.filter (fun p => p.1 == u) := by
      apply List.filter_congr
      intro q _
      by_cases hqk : q.1 = k
      · simp [Function.comp, hqk, hne]
      · simp [Function.comp, hqk]
    rw [h1]
    have h2 : ∀ q ∈ m.filter (fun p => p.1 == u),
        (fun p => if p.1 == k then (k, v) else p) q = q := by
      intro q hq
      have hqu : q.1 = u := by simpa using List.of_mem_filter hq
      have hk : ¬ (q.1 == k) = true := by
        simp [hqu]
        exact fun h => hne h.symm
      simp [hk]
    rw [List.map_congr_left h2, List.map_id']
  · rw [List.filter_append]
    simp [hne]

/-- Inserting under key `u` leaves exactly one entry for `u`, holding
the inserted value (the dict's overwrite semantics). -/
theorem insertAssoc_filter_self (m : List (String × ArticleRef)) (v : ArticleRef)
    (u : String) (hlen : (m.filter (fun p => p.1 == u)).length ≤ 1) :
    (insertAssoc m u v).filter (fun p => p.1 == u) = [(u, v)] := by
  unfold insertAssoc
  split
  · rename_i hany
    rw [List.filter_map]
    have h1 : m.filter ((fun p => p.1 == u) ∘ fun p => if p.1 == u then (u, v) else p)
        = m.filter (fun p => p.1 == u) := by
      apply List.filter_congr
      intro q _
      by_cases hqu : q.1 = u
      · simp [Function.comp, hqu]
      · simp [Function.comp, hqu]
    rw [h1]
    have hne : m.filter (fun p => p.1 == u) ≠ [] := by
      rw [List.any_eq_true] at hany
      obtain ⟨q, hq, hqu⟩ := hany
      intro hnil
      exact List.not_mem_nil q (hnil ▸ List.mem_filter.mpr ⟨hq, hqu⟩)
    obtain ⟨q, hq⟩ : ∃ q, m.filter (fun p => p.1 == u) = [q] := by
      cases hfl : m.filter (fun p => p.1 == u) with
      | nil => exact absurd hfl hne
      | cons q rest =>
          cases rest with
          | nil => exact ⟨q, rfl⟩
          | cons q2 rest2 => rw [hfl] at hlen; simp at hlen
    rw [hq]
    have hq1 : q.1 = u := by
      have hmem : q ∈ m.filter (fun p => p.1 == u) := by
        rw [hq]
        exact List.mem_singleton.mpr rfl
      simpa using (List.mem_filter.mp hmem).2
    simp [hq1]
  · rename_i hany
    have hfl : m.filter (fun p => p.1 == u) = [] := by
      rw [List.filter_eq_nil_iff]
      intro q hq
      intro hqu
      exact hany (List.any_eq_true.mpr ⟨q, hq, hqu⟩)
    rw [List.filter_append, hfl]
    simp

/-- When no element of `l` carries URL `u`, folding `l` into the dict
does not touch the entries for `u`. -/
theorem urlIndex_foldl_filter_none {u : String} (l : List ArticleRef) :
    ∀ m : List (String × ArticleRef), l.filter (fun a => a.url == u) = [] →
      (l.foldl (fun m a => insertAssoc m a.url a) m).filter (fun p => p.1 == u)
        = m.filter (fun p => p.1 == u) := by
  induction l with
  | nil => intro m _; rfl
  | cons b l ih =>
      intro m hfil
      rw [List.filter_cons] at hfil
      by_cases hb : (b.url == u) = true
      · rw [if_pos hb] at hfil
        exact absurd hfil (List.cons_ne_nil _ _)
      · rw [if_neg hb] at hfil
        rw [List.foldl_cons, ih _ hfil, insertAssoc_filter_ne]
        exact fun h => hb (by simp [h])

/-- When the last element of `l` carrying URL `u` is `a`, folding `l`
into the dict leaves exactly the entry `(u, a)` for `u`: the
map-overwrite, last-wins semantics of the dict comprehension. -/
theorem urlIndex_foldl_filter_last {u : String} (l : List ArticleRef) :
    ∀ (m : List (String × ArticleRef)) (a : ArticleRef),
      (l.filter (fun x => x.url == u)).getLast? = some a →
      (m.filter (fun p => p.1 == u)).length ≤ 1 →
      (l.foldl (fun m a => insertAssoc m a.url a) m).filter (fun p => p.1 == u) = [(u, a)] := by
  induction l with
  | nil => intro m a hlast _; simp at hlast
  | cons b l ih =>
      intro m a hlast hlen
      rw [List.foldl_cons]
      rw [List.filter_cons] at hlast
      by_cases hb : (b.url == u) = true
      · have hbu : b.url = u := by simpa using hb
        rw [if_pos hb] at hlast
        have hm' : (insertAssoc m b.url b).filter (fun p => p.1 == u) = [(u, b)] := by
          rw [hbu]
          exact insertAssoc_filter_self m b u hlen
        have hlen' : ((insertAssoc m b.url b).filter (fun p => p.1 == u)).length ≤ 1 := by
          rw [hm']
          exact le_refl 1
        cases hl : (l.filter (fun x => x.url == u)).getLast? with
        | some a' =>
            have hne : l.filter (fun x => x.url == u) ≠ [] := by
              intro hnil
              rw [hnil] at hl
              simp at hl
            have haa : a = a' := by
              cases hfl : l.filter (fun x => x.url == u) with
              | nil => exact absurd hfl hne
              | cons c rest =>
                  rw [hfl] at hlast hl
                  rw [List.getLast?_cons_cons] at hlast
                  rw [hl] at hlast
                  exact (Option.some.inj hlast).symm
            rw [haa]
            exact ih _ a' hl hlen'
        | none =>
            have hnil : l.filter (fun x => x.url == u) = [] := by
              simpa using hl
            rw [hnil] at hlast
            have hab : a = b := by
              simpa using hlast.symm
            rw [urlIndex_foldl_filter_none l _ hnil, hm', hab]
      · rw [if_neg hb] at hlast
        have hm' : (insertAssoc m b.url b).filter (fun p => p.1 == u)
            = m.filter (fun p => p.1 == u) :=
          insertAssoc_filter_ne m b.url b u (fun h => hb (by simp [h]))
        exact ih _ a hlast (hm' ▸ hlen)

/-- A reformatted timestamp is never the empty string. -/
theorem formatTimestamp_ne_empty (t : Timestamp) : formatTimestamp t ≠ "" := by
  unfold formatTimestamp
  intro h
  have hdata := congrArg String.data h
  simp only [String.data] at hdata
  rcases List.append_eq_nil.mp hdata with ⟨-, hcons⟩
  exact List.cons_ne_nil _ _ hcons

/-! ## The claims -/

/-- **C1.** For every article link whose fetch fails, the crawl drops
that link entirely — no error propagates past the worker (the model is
total: the `except` arm of `fetch_article` returns `None`) and no record
appears in the output — so the aggregate result contains exactly the
articles produced from successful fetches: an article is collected iff
some discovered link's fetch+extract succeeds with it. -/
theorem C1_crawl_collects_exactly_successful_fetches (base_url : String)
    (parseHTML : String → Node) (net : Net) (a : Article) :
    a ∈ get_main_page_articles base_url parseHTML net ↔
      ∃ ref ∈ discoveredLinks base_url parseHTML net,
        fetch_article net parseHTML ref = some a := by
  unfold get_main_page_articles discoveredLinks
  cases hm : net.mainPage with
  | none => simp
  | some html_content =>
      by_cases he : (html_content == "") = true
      · simp [he]
      · by_cases hl : (parse_main_page (parseHTML html_content) base_url).isEmpty = true
        · simp [he, List.isEmpty_iff.mp hl]
        · simp [he, hl, List.mem_filterMap]

/-- **C2.** If the landing-page fetch fails, or link extraction
discovers no links, the crawl returns the empty list (no exception is
modelled to escape: `get_main_page_articles` is total and returns `[]`
on both paths). -/
theorem C2_empty_on_landing_failure_or_no_links (base_url : String)
    (parseHTML : String → Node) (net : Net) :
    (net.mainPage = none → get_main_page_articles base_url parseHTML net = []) ∧
    (∀ html_content, net.mainPage = some html_content →
      parse_main_page (parseHTML html_content) base_url = [] →
      get_main_page_articles base_url parseHTML net = []) := by
  constructor
  · intro h
    simp [get_main_page_articles, h]
  · intro html_content h hp
    simp [get_main_page_articles, h, hp]

/-- **C8.** A run whose pipeline yields zero articles exits with status
`1`; a run yielding one or more articles exits normally (status `0`) —
for every network behavior, i.e. regardless of how many individual
article fetches failed along the way. -/
theorem C8_exit_status_contract (base_url : String) (parseHTML : String → Node)
    (net : Net) :
    (get_main_page_articles base_url parseHTML net = [] →
      mainExitCode (get_main_page_articles base_url parseHTML net) = 1) ∧
    (get_main_page_articles base_url parseHTML net ≠ [] →
      mainExitCode (get_main_page_articles base_url parseHTML net) = 0) := by
  constructor
  · intro h
    simp [mainExitCode, h]
  · intro h
    simp [mainExitCode, List.isEmpty_iff, h]

/-- **C10.** A successful landing-page fetch with an empty body is
treated exactly like a failed fetch: the result is `[]`, it does not
depend on the HTML parser (so link extraction is never invoked), and it
coincides with the run in which the landing-page fetch fails — the
markup is truth-tested (`if html_content:`), not tested for `None`. -/
theorem C10_empty_landing_body_like_failure (base_url : String)
    (parseHTML : String → Node) (net : Net) (h : net.mainPage = some "") :
    get_main_page_articles base_url parseHTML net = [] ∧
    (∀ parseHTML', get_main_page_articles base_url parseHTML' net
        = get_main_page_articles base_url parseHTML net) ∧
    get_main_page_articles base_url parseHTML
        { mainPage := none, articlePage := net.articlePage }
      = get_main_page_articles base_url parseHTML net := by
  refine ⟨?_, ?_, ?_⟩ <;> simp [get_main_page_articles, h]

/-- A concrete article page whose only paragraph element is an empty
`<p></p>`: one generic paragraph matches, yet its assembled text is
empty. -/
def emptyParagraphDoc : Node :=
  .elem "[document]" [] [] [.elem "p" [] [] []]

/-- A stand-in for the `article_info` argument of `fetch_article`. -/
def sampleRef : ArticleRef :=
  ⟨"Sample Title", "https://www.cnn.com/2024/03/15/sample/index.html"⟩

/-- **C3, counterexample.** The claim says the body equals the sentinel
`"No Content Found"` whenever the assembled body text is empty.  On a
page whose only paragraph element is an empty `<p>`, the paragraph list
is non-empty, the assembled body text is empty, and the extracted body
is the empty string — not the sentinel: the code only substitutes the
sentinel when *no* paragraph element matches at all. -/
theorem C3_counterexample_empty_assembled_body :
    (paragraphsOf emptyParagraphDoc).isEmpty = false ∧
    joinNL ((paragraphsOf emptyParagraphDoc).map getTextStrip) = "" ∧
    (extractArticle emptyParagraphDoc sampleRef).content = "" ∧
    (extractArticle emptyParagraphDoc sampleRef).content ≠ "No Content Found" := by
  refine ⟨by decide, by decide, by decide, by decide⟩

/-- **C3, amended.** The body is the sentinel `"No Content Found"` when
no paragraph-content element and no generic paragraph element matches;
otherwise it is the paragraph texts joined with newlines, with every
occurrence of `"Follow:"` removed and surrounding whitespace trimmed
(which may well be the empty string, not the sentinel). -/
theorem C3_body_sentinel_only_when_no_paragraphs (soup : Node)
    (article_info : ArticleRef) :
    ((soup.findAll (isDivWithClass "paragraph__content")).isEmpty = true →
      (soup.findAll (isTag "p")).isEmpty = true →
      (extractArticle soup article_info).content = "No Content Found") ∧
    ((paragraphsOf soup).isEmpty = false →
      (extractArticle soup article_info).content
        = pyStrip (pyRemoveAll (joinNL ((paragraphsOf soup).map getTextStrip)) "Follow:")) := by
  constructor
  · intro hpc hp
    have hpar : (paragraphsOf soup).isEmpty = true := by
      unfold paragraphsOf
      rw [if_pos hpc]
      exact hp
    show pyStrip (pyRemoveAll (rawContent soup) "Follow:") = "No Content Found"
    unfold rawContent
    rw [if_pos hpar]
    decide
  · intro hpar
    show pyStrip (pyRemoveAll (rawContent soup) "Follow:") = _
    unfold rawContent
    rw [if_neg (by simp [hpar])]

/-- **C4.** Article extraction never raises on missing or malformed
timestamp text (`extractDate` is a total function; the `except
(ValueError, TypeError)` arm is the `none` branch of `strptimeUpdated`):
the date field is non-empty, and is either the timestamp parsed against
the fixed pattern `"Updated %I:%M %p %Z, %a %B %d, %Y"` re-rendered as
`"%Y-%m-%d %H:%M:%S"`, or the sentinel `"No Date Found"`; when the
timestamp element is absent it is the sentinel. -/
theorem C4_date_total_with_sentinel (soup : Node) (article_info : ArticleRef) :
    (extractArticle soup article_info).date ≠ "" ∧
    ((extractArticle soup article_info).date = "No Date Found" ∨
      ∃ date_str t, timestampText soup = some date_str ∧
        strptimeUpdated date_str = some t ∧
        (extractArticle soup article_info).date = formatTimestamp t) ∧
    (timestampText soup = none →
      (extractArticle soup article_info).date = "No Date Found") := by
  have hd : (extractArticle soup article_info).date = dateFrom (timestampText soup) := rfl
  rw [hd]
  cases htt : timestampText soup with
  | none => exact ⟨by decide, Or.inl rfl, fun _ => rfl⟩
  | some date_str =>
      simp only [dateFrom]
      refine ⟨?_, ?_, fun hc => by simp at hc⟩
      · by_cases he : (date_str == "") = true
        · simp [he]
        · rw [if_neg he]
          cases hp : strptimeUpdated date_str with
          | none => decide
          | some t => exact formatTimestamp_ne_empty t
      · by_cases he : (date_str == "") = true
        · simp [he]
        · rw [if_neg he]
          cases hp : strptimeUpdated date_str with
          | none => exact Or.inl rfl
          | some t => exact Or.inr ⟨date_str, t, rfl, hp, rfl⟩

/-- **C5.** When one or several processed anchors share a target URL
`u` (all having passed the media-label and date-path filters with
non-empty visible text, i.e. all appearing among the candidates), link
extraction returns exactly one reference for `u`, and it is the
candidate processed last in traversal order — map-overwrite semantics,
not first-wins. -/
theorem C5_dedup_last_anchor_wins (soup : Node) (base_url : String) (u : String)
    (h : (anchorCandidates soup base_url).filter (fun r => r.url == u) ≠ []) :
    (parse_main_page soup base_url).filter (fun r => r.url == u)
      = [((anchorCandidates soup base_url).filter (fun r => r.url == u)).getLast h] := by
  have hlast := List.getLast?_eq_getLast _ h
  unfold parse_main_page
  rw [List.filter_map]
  have hfc : (urlIndex (anchorCandidates soup base_url)).filter
        ((fun r => r.url == u) ∘ fun p => p.2)
      = (urlIndex (anchorCandidates soup base_url)).filter (fun p => p.1 == u) := by
    apply List.filter_congr
    intro p hp
    have := urlIndex_key_eq _ p hp
    simp [Function.comp, this]
  rw [hfc]
  unfold urlIndex
  rw [urlIndex_foldl_filter_last (anchorCandidates soup base_url) []
    (((anchorCandidates soup base_url).filter (fun r => r.url == u)).getLast h) hlast
    (by simp)]
  rfl

/-- **C6.** Every reference returned by link extraction has a URL
containing a substring matching the date-path pattern
(`/dddd/dd/dd/`): the candidate passed the regex filter, and prefixing
the base URL preserves the matching substring. -/
theorem C6_every_link_has_date_path (soup : Node) (base_url : String)
    (r : ArticleRef) (h : r ∈ parse_main_page soup base_url) :
    hasDatePath r.url = true :=
  (mem_anchorCandidates (mem_parse_main_page h)).1

/-- **C7.** Anchors whose visible text contains the literal substring
`"Video"` or `"Gallery"` (case-sensitive) are excluded regardless of
URL shape: no returned reference carries either label in its title
(titles are exactly the surviving anchors' visible texts). -/
theorem C7_media_labels_excluded (soup : Node) (base_url : String)
    (r : ArticleRef) (h : r ∈ parse_main_page soup base_url) :
    containsStr r.title "Video" = false ∧ containsStr r.title "Gallery" = false :=
  ⟨(mem_anchorCandidates (mem_parse_main_page h)).2.1,
    (mem_anchorCandidates (mem_parse_main_page h)).2.2.1⟩

/-- **C9.** With the discovered links submitted to
`ThreadPoolExecutor(max_workers)`, every reachable state of the pool
has at most `max_workers` fetch+extract tasks in flight — a bounded
worker pool, not one unbounded thread per link. -/
theorem C9_concurrency_bounded (net : Net) (parseHTML : String → Node)
    (max_workers : Nat) (links : List ArticleRef) (s : PoolState)
    (h : PoolReach net parseHTML max_workers ⟨links, [], []⟩ s) :
    s.running.length ≤ max_workers := by
  unfold PoolReach at h
  induction h with
  | refl => simp
  | tail h' step ih =>
      cases step with
      | start a pend run comp hlt => simpa using hlt
      | finish a pend run comp hmem =>
          exact le_trans (List.erase_sublist a run).length_le ih

/-! ## Concrete instances and witnesses -/

/-- The default base URL of the scraper. -/
def cnnBase : String := "https://www.cnn.com"

/-- A landing page with two anchors sharing one dated URL, a `Video`
anchor, and an undated anchor. -/
def landingDoc : Node :=
  .elem "[document]" [] [] [
    .elem "a" [] [("href", "/2024/03/15/alpha/index.html")] [.text "Alpha Story"],
    .elem "a" [] [("href", "/2024/03/15/alpha/index.html")] [.text "Alpha Updated"],
    .elem "a" [] [("href", "/2024/03/16/clip/index.html")] [.text "Some Video clip"],
    .elem "a" [] [("href", "/about")] [.text "About"]]

/-- A plain article page: a heading and one paragraph, no timestamp. -/
def demoArticleDoc : Node :=
  .elem "[document]" [] [] [
    .elem "h1" [] [] [.text "Headline"],
    .elem "p" [] [] [.text "Body."]]

/-- A parser mapping the landing-page body `"L"` to `landingDoc` and
everything else to `demoArticleDoc`. -/
def demoParse : String → Node := fun s => if s == "L" then landingDoc else demoArticleDoc

/-- A network on which the landing-page fetch fails. -/
def netFailMain : Net := ⟨none, fun _ => none⟩

/-- A network whose landing page contains no article links. -/
def netNoLinks : Net := ⟨some "<html></html>", fun _ => none⟩

/-- A network on which the full pipeline yields one article. -/
def netOk : Net := ⟨some "L", fun _ => some "A"⟩

/-- A network whose landing-page fetch succeeds with an empty body. -/
def netEmptyBody : Net := ⟨some "", fun _ => none⟩

/-- A page with no paragraph-content element and no generic paragraph. -/
def bareDoc : Node := .elem "[document]" [] [] [.text "plain"]

/-- A page with one paragraph-content element whose text carries a
`"Follow:"` token and surrounding whitespace. -/
def followDoc : Node :=
  .elem "[document]" [] [] [.elem "div" ["paragraph__content"] [] [.text " Follow:Hello "]]

/-- The deduplicated URL shared by the two `Alpha` anchors. -/
def dupUrl : String := "https://www.cnn.com/2024/03/15/alpha/index.html"

/-- The reference returned for `dupUrl` (last anchor's title). -/
def aRef : ArticleRef := ⟨"Alpha Updated", dupUrl⟩

/-- Two pending links for the pool model. -/
def wRef1 : ArticleRef := ⟨"A", "https://www.cnn.com/2024/01/01/a/index.html"⟩

/-- Second pending link for the pool model. -/
def wRef2 : ArticleRef := ⟨"B", "https://www.cnn.com/2024/01/02/b/index.html"⟩

/-- Witness for **C2**: a failed landing fetch and a link-free landing
page both yield the empty run. -/
theorem C2_witness :
    get_main_page_articles cnnBase demoParse netFailMain = [] ∧
    get_main_page_articles cnnBase demoParse netNoLinks = [] :=
  ⟨(C2_empty_on_landing_failure_or_no_links cnnBase demoParse netFailMain).1 rfl,
    (C2_empty_on_landing_failure_or_no_links cnnBase demoParse netNoLinks).2
      "<html></html>" rfl (by decide)⟩

/-- Witness for **C3**: a page with no paragraph elements gets the
sentinel; a page with one paragraph gets its cleaned joined text. -/
theorem C3_witness :
    (extractArticle bareDoc sampleRef).content = "No Content Found" ∧
    (extractArticle followDoc sampleRef).content
      = pyStrip (pyRemoveAll (joinNL ((paragraphsOf followDoc).map getTextStrip)) "Follow:") :=
  ⟨(C3_body_sentinel_only_when_no_paragraphs bareDoc sampleRef).1 (by decide) (by decide),
    (C3_body_sentinel_only_when_no_paragraphs followDoc sampleRef).2 (by decide)⟩

/-- Witness for **C4**: on a page without a timestamp element the date
is the (non-empty) sentinel. -/
theorem C4_witness :
    timestampText bareDoc = none ∧
    (extractArticle bareDoc sampleRef).date = "No Date Found" ∧
    (extractArticle bareDoc sampleRef).date ≠ "" :=
  ⟨by decide, (C4_date_total_with_sentinel bareDoc sampleRef).2.2 (by decide),
    (C4_date_total_with_sentinel bareDoc sampleRef).1⟩

/-- Witness for **C5**: on `landingDoc` the shared URL yields exactly
one reference, titled by the later anchor. -/
theorem C5_witness :
    (parse_main_page landingDoc cnnBase).filter (fun r => r.url == dupUrl)
      = [aRef] := by
  have h : (anchorCandidates landingDoc cnnBase).filter (fun r => r.url == dupUrl) ≠ [] := by
    decide
  rw [C5_dedup_last_anchor_wins landingDoc cnnBase dupUrl h]
  have h3 : ((anchorCandidates landingDoc cnnBase).filter
      (fun r => r.url == dupUrl)).getLast? = some aRef := by decide
  have h4 := List.getLast?_eq_getLast
    ((anchorCandidates landingDoc cnnBase).filter (fun r => r.url == dupUrl)) h
  rw [h3] at h4
  rw [(Option.some.inj h4).symm]

/-- Witness for **C6**: the reference returned from `landingDoc` has a
date-path URL. -/
theorem C6_witness :
    aRef ∈ parse_main_page landingDoc cnnBase ∧ hasDatePath aRef.url = true :=
  ⟨by decide, C6_every_link_has_date_path landingDoc cnnBase aRef (by decide)⟩

/-- Witness for **C7**: the reference returned from `landingDoc` is free
of the media labels. -/
theorem C7_witness :
    containsStr aRef.title "Video" = false ∧ containsStr aRef.title "Gallery" = false :=
  C7_media_labels_excluded landingDoc cnnBase aRef (by decide)

/-- Witness for **C8**: a one-article run exits normally, a zero-article
run exits with status 1. -/
theorem C8_witness :
    mainExitCode (get_main_page_articles cnnBase demoParse netOk) = 0 ∧
    mainExitCode (get_main_page_articles cnnBase demoParse netFailMain) = 1 :=
  ⟨(C8_exit_status_contract cnnBase demoParse netOk).2 (by decide),
    (C8_exit_status_contract cnnBase demoParse netFailMain).1 (by decide)⟩

/-- Witness for **C9**: after starting one of two submitted tasks with
`max_workers = 2`, the reached state keeps at most two tasks in
flight. -/
theorem C9_witness :
    PoolReach netFailMain demoParse 2 ⟨[wRef1, wRef2], [], []⟩ ⟨[wRef2], [wRef1], []⟩ ∧
    (PoolState.mk [wRef2] [wRef1] []).running.length ≤ 2 := by
  have hreach : PoolReach netFailMain demoParse 2 ⟨[wRef1, wRef2], [], []⟩
      ⟨[wRef2], [wRef1], []⟩ :=
    Relation.ReflTransGen.single (PoolStep.start wRef1 [wRef2] [] [] (by decide))
  exact ⟨hreach, C9_concurrency_bounded netFailMain demoParse 2 [wRef1, wRef2] _ hreach⟩

/-- Witness for **C10**: an empty landing body yields the empty run. -/
theorem C10_witness :
    get_main_page_articles cnnBase demoParse netEmptyBody = [] :=
  (C10_empty_landing_body_like_failure cnnBase demoParse netEmptyBody rfl).1
